import Mathlib

/-!
Shallow embedding of the StarPen blog application (src/app.py).

The relational store is modelled as in-memory lists of records, the Supabase
thumbnail bucket as a list of live object names, and the flask-login session
as an optional user id.  External effects that can fail (blob upload, blob
removal) are driven by boolean oracles standing for "the call raised no
exception"; the uuid-based object name is a parameter of the request.
Password hashing is kept abstract: handlers take the hash and check
primitives as function arguments.
-/

/-- Python truthiness of an optional string form value:
`None` and the empty string are falsy. -/
def truthy : Option String → Bool
  | none => false
  | some s => !s.isEmpty

/-- A row of the `users` table (app.py, class User). -/
structure User where
  id : Nat
  username : String
  hash : String
  deriving DecidableEq

/-- A row of the `blogs` table (app.py, class Blog).  `title`, `content` and
`category_id` are `Option`s because the edit handler assigns raw
`request.form.get` results (possibly `None`) to them. -/
structure Blog where
  id : Nat
  title : Option String
  content : Option String
  thumbnail : Option String
  created_at : Nat
  user_id : Nat
  category_id : Option String
  deriving DecidableEq

/-- A row of the `comments` table (app.py, class Comment). -/
structure Comment where
  id : Nat
  content : String
  created_at : Nat
  user_id : Nat
  blog_id : Nat
  deriving DecidableEq

/-- The whole mutable world the handlers touch: database tables, the live
object names of the `thumbnails` bucket, and the login session. -/
structure AppState where
  users : List User
  blogs : List Blog
  comments : List Comment
  blobs : List String
  session : Option Nat
  nextUserId : Nat
  nextBlogId : Nat
  deriving DecidableEq

/-- An uploaded multipart file as the handlers see it: only its client-supplied
filename matters for control flow. -/
structure UploadFile where
  filename : String
  deriving DecidableEq

/-- `if file and file.filename` / `if file and file.filename != ''`:
a file part is acted on only when present with a non-empty filename. -/
def fileTruthy : Option UploadFile → Bool
  | none => false
  | some f => f.filename != ""

/-- `supabase.storage.from_("thumbnails").get_public_url(name)`. -/
def publicUrl (name : String) : String :=
  String.append "https://supabase.example/storage/v1/object/public/thumbnails/" name

/-- Python `url.split("/")[-1]`, used to recover the object name from the
stored public URL before a remove call: the characters after the last slash
(the whole string when no slash occurs). -/
def lastSegment (s : String) : String :=
  ⟨(s.data.reverse.takeWhile (fun c => c ≠ '/')).reverse⟩

/-- Removing an object from the bucket: the name is no longer live. -/
def removeBlob (blobs : List String) (name : String) : List String :=
  blobs.filter (fun b => b ≠ name)

/-- A best-effort `remove` call inside a `try`: on success (oracle true) the
object disappears and the deletion is recorded; on failure the exception is
swallowed and nothing changes.  Returns (live blobs, names deleted here). -/
def tryRemove (blobs : List String) (name : String) (ok : Bool) :
    List String × List String :=
  if ok then (removeBlob blobs name, [name]) else (blobs, [])

/-- Everything nondeterministic about one edit request's blob traffic:
whether each external call raises, and the uuid-derived object name. -/
structure BlobOracle where
  removeOk1 : Bool
  removeOk2 : Bool
  uploadOk : Bool
  freshName : String
  deriving DecidableEq

/-- ASCII case folding, the case-insensitivity of `ILIKE` on the data this
application stores. -/
def lowerChar (c : Char) : Char :=
  if 65 ≤ c.toNat ∧ c.toNat ≤ 90 then Char.ofNat (c.toNat + 32) else c

def lowerChars (s : String) : List Char := s.data.map lowerChar

/-- Case-insensitive substring test on character lists (the semantics of
SQL `ILIKE '%pat%'` after lowering both sides). -/
def charsPrefixOf : List Char → List Char → Bool
  | [], _ => true
  | _ :: _, [] => false
  | a :: as, b :: bs => a == b && charsPrefixOf as bs

def charsInfixOf : List Char → List Char → Bool
  | pat, [] => charsPrefixOf pat []
  | pat, h :: t => charsPrefixOf pat (h :: t) || charsInfixOf pat t

/-- `column ILIKE '%pat%'`: case-insensitive containment. -/
def containsCI (hay pat : String) : Bool :=
  charsInfixOf (lowerChars pat) (lowerChars hay)

/-- `ILIKE` against a nullable column: SQL NULL never matches. -/
def optContainsCI : Option String → String → Bool
  | none, _ => false
  | some s, pat => containsCI s pat

/-- The author row joined to a blog (`Blog.query.join(User)` on the
`user_id` foreign key). -/
def userOf (st : AppState) (b : Blog) : Option User :=
  st.users.find? (fun u => u.id == b.user_id)

/-- `order_by(Blog.created_at.desc())`: a comes before b when its timestamp
is at least b's. -/
def newestFirst (a b : Blog) : Prop := b.created_at ≤ a.created_at

instance : DecidableRel newestFirst := fun a b => Nat.decLe b.created_at a.created_at

instance : IsTotal Blog newestFirst :=
  ⟨fun a b => Nat.le_total b.created_at a.created_at⟩

instance : IsTrans Blog newestFirst :=
  ⟨fun _ _ _ h1 h2 => Nat.le_trans h2 h1⟩

def sortByCreatedDesc (blogs : List Blog) : List Blog :=
  List.insertionSort newestFirst blogs

/-- The `/` handler (app.py `index`): with a truthy `q` it inner-joins blogs
to their authors and keeps rows where title, content or author username
contains the query case-insensitively; otherwise all blogs.  Newest first. -/
def index (st : AppState) (q : Option String) : List Blog :=
  if truthy q then
    let qs := q.getD ""
    sortByCreatedDesc (st.blogs.filter (fun b =>
      match userOf st b with
      | some u => optContainsCI b.title qs || optContainsCI b.content qs ||
          containsCI u.username qs
      | none => false))
  else
    sortByCreatedDesc st.blogs

/-- What the `/login` handler externally does. -/
inductive LoginOutcome
  | redirectIndexAlready
  | renderMissingCredentials (preview : List Blog)
  | renderInvalidCredentials (preview : List Blog)
  | successRedirect
  deriving DecidableEq

/-- The `/login` POST handler (app.py `login`), parametrised by the external
`check_password_hash` primitive `chk`. -/
def login (chk : String → String → Bool) (st : AppState)
    (username password : Option String) : LoginOutcome × AppState :=
  if st.session.isSome then (.redirectIndexAlready, st)
  else if !(truthy username) || !(truthy password) then
    (.renderMissingCredentials (st.blogs.take 3), st)
  else
    let u := username.getD ""
    let p := password.getD ""
    match st.users.find? (fun usr => usr.username == u) with
    | none => (.renderInvalidCredentials (st.blogs.take 3), st)
    | some usr =>
      if chk usr.hash p then (.successRedirect, { st with session := some usr.id })
      else (.renderInvalidCredentials (st.blogs.take 3), st)

/-- What the `/register` handler externally does. -/
inductive RegisterOutcome
  | renderAllFieldsRequired (preview : List Blog)
  | renderWeakPassword (preview : List Blog)
  | renderPasswordMismatch (preview : List Blog)
  | renderUsernameTaken (preview : List Blog)
  | successRedirect
  deriving DecidableEq

/-- The `/register` POST handler (app.py `register`), parametrised by the
external `generate_password_hash` primitive `gh`.  On success the new user is
stored with `gh password` and logged in (`login_user(new_user)`). -/
def register (gh : String → String) (st : AppState)
    (username password confirmation : Option String) :
    RegisterOutcome × AppState :=
  let previews := (sortByCreatedDesc st.blogs).take 3
  if !(truthy username) || !(truthy password) then
    (.renderAllFieldsRequired previews, st)
  else
    let u := username.getD ""
    let p := password.getD ""
    if p.length < 8 then (.renderWeakPassword previews, st)
    else if confirmation != some p then (.renderPasswordMismatch previews, st)
    else
      match st.users.find? (fun usr => usr.username == u) with
      | some _ => (.renderUsernameTaken previews, st)
      | none =>
        let newUser : User := { id := st.nextUserId, username := u, hash := gh p }
        (.successRedirect,
         { st with users := st.users ++ [newUser],
                   nextUserId := st.nextUserId + 1,
                   session := some newUser.id })

/-- The `create` form fields. -/
structure CreateForm where
  title : Option String
  content : Option String
  category : Option String
  file : Option UploadFile
  deriving DecidableEq

inductive CreateOutcome
  | renderAllFieldsRequired
  | redirectIndex
  deriving DecidableEq

/-- Nondeterminism of the create request's upload. -/
structure CreateOracle where
  uploadOk : Bool
  freshName : String
  deriving DecidableEq

/-- The `/create` POST handler (app.py `create`).  Field presence is
validated; the thumbnail upload sits in a `try` whose failure leaves
`image_url = None` and the blog row is inserted regardless. -/
def create (st : AppState) (actor : Nat) (form : CreateForm) (o : CreateOracle)
    (now : Nat) : CreateOutcome × AppState :=
  if !(truthy form.title) || !(truthy form.content) || !(truthy form.category) then
    (.renderAllFieldsRequired, st)
  else
    let up : Option String × List String :=
      if fileTruthy form.file then
        if o.uploadOk then (some (publicUrl o.freshName), o.freshName :: st.blobs)
        else (none, st.blobs)
      else (none, st.blobs)
    let blog : Blog :=
      { id := st.nextBlogId, title := form.title, content := form.content,
        thumbnail := up.1, created_at := now, user_id := actor,
        category_id := form.category }
    (.redirectIndex,
     { st with blogs := st.blogs ++ [blog], blobs := up.2,
               nextBlogId := st.nextBlogId + 1 })

/-- The `edit` form fields. -/
structure EditForm where
  title : Option String
  content : Option String
  category : Option String
  remove_image : Option String
  file : Option UploadFile
  deriving DecidableEq

inductive EditOutcome
  | notFound
  | notAuthorizedRedirect
  | redirectMyBlogs
  deriving DecidableEq

/-- Result of one edit request: outcome, new world, and the object names this
request successfully deleted from the bucket. -/
structure EditEffects where
  outcome : EditOutcome
  state : AppState
  deletedBlobs : List String
  deriving DecidableEq

/-- `if request.form.get("remove_image") == "true" and blog.thumbnail:`
best-effort remove of the old object, then `blog.thumbnail = None`. -/
def editRemoveImageStep (form : EditForm) (b1 : Blog) (blobs : List String)
    (ok : Bool) : Blog × List String × List String :=
  if form.remove_image == some "true" && truthy b1.thumbnail then
    let rm := tryRemove blobs (lastSegment (b1.thumbnail.getD "")) ok
    ({ b1 with thumbnail := none }, rm.1, rm.2)
  else (b1, blobs, [])

/-- `if file and file.filename != '':` — best-effort remove of the current
object if any, then a `try`-guarded upload; only a successful upload writes
the new public URL into `blog.thumbnail`. -/
def editFileStep (form : EditForm) (b2 : Blog) (blobs : List String)
    (o : BlobOracle) : Blog × List String × List String :=
  if fileTruthy form.file then
    let rm :=
      if truthy b2.thumbnail then
        tryRemove blobs (lastSegment (b2.thumbnail.getD "")) o.removeOk2
      else (blobs, [])
    if o.uploadOk then
      ({ b2 with thumbnail := some (publicUrl o.freshName) },
       o.freshName :: rm.1, rm.2)
    else (b2, rm.1, rm.2)
  else (b2, blobs, [])

/-- `blog.title = request.form.get("title")` and the two assignments after
it: the three fields are overwritten with the raw form values, present or
not. -/
def editAssignFields (form : EditForm) (blog : Blog) : Blog :=
  { blog with title := form.title, content := form.content,
              category_id := form.category }

/-- The owner-only body of the edit POST: unconditional field assignment,
then the remove-image and replace-thumbnail steps, then the commit. -/
def editOwnerBody (st : AppState) (id : Nat) (form : EditForm) (o : BlobOracle)
    (blog : Blog) : EditEffects :=
  let s2 := editRemoveImageStep form (editAssignFields form blog) st.blobs
    o.removeOk1
  let s3 := editFileStep form s2.1 s2.2.1 o
  ⟨.redirectMyBlogs,
   { st with blogs := st.blogs.map (fun b => if b.id == id then s3.1 else b),
             blobs := s3.2.1 },
   s2.2.2 ++ s3.2.2⟩

/-- The `/edit/<id>` POST handler (app.py `edit`): 404 on a missing blog,
silent redirect for a non-owner, otherwise the owner body. -/
def edit (st : AppState) (actor id : Nat) (form : EditForm) (o : BlobOracle) :
    EditEffects :=
  match st.blogs.find? (fun b => b.id == id) with
  | none => ⟨.notFound, st, []⟩
  | some blog =>
    if blog.user_id != actor then ⟨.notAuthorizedRedirect, st, []⟩
    else editOwnerBody st id form o blog

inductive DeleteOutcome
  | notFound
  | deletedRedirect
  | silentRedirect
  deriving DecidableEq

/-- The `/delete/<id>` POST handler (app.py `delete`): only the owner deletes;
the thumbnail remove is best-effort inside a `try`; the row delete cascades to
the blog's comments (`cascade="all, delete-orphan"`). -/
def deleteBlog (st : AppState) (actor id : Nat) (removeOk : Bool) :
    DeleteOutcome × AppState :=
  match st.blogs.find? (fun b => b.id == id) with
  | none => (.notFound, st)
  | some blog =>
    if blog.user_id == actor then
      let blobs' :=
        if truthy blog.thumbnail then
          (tryRemove st.blobs (lastSegment (blog.thumbnail.getD "")) removeOk).1
        else st.blobs
      (.deletedRedirect,
       { st with blogs := st.blogs.filter (fun b => b.id ≠ id),
                 comments := st.comments.filter (fun c => c.blog_id ≠ id),
                 blobs := blobs' })
    else (.silentRedirect, st)

/-! Concrete instances used by counterexamples and witnesses. -/

/-- A concrete model of `generate_password_hash` for witnesses. -/
def ghW (p : String) : String := String.append "pbkdf2-sha256$" p

/-- The matching concrete model of `check_password_hash`. -/
def chkW (h p : String) : Bool := h == String.append "pbkdf2-sha256$" p

def stEmpty : AppState :=
  { users := [], blogs := [], comments := [], blobs := [],
    session := none, nextUserId := 1, nextBlogId := 1 }

/-- A blog owned by user 1 whose thumbnail points at the object `old.png`. -/
def blogC1 : Blog :=
  { id := 1, title := some "t", content := some "c",
    thumbnail := some (publicUrl "old.png"), created_at := 5,
    user_id := 1, category_id := some "2" }

/-- One user owning one blog whose thumbnail points at the live object
`old.png`; the owner is logged in. -/
def stC1 : AppState :=
  { users := [{ id := 1, username := "alice", hash := "h" }],
    blogs := [blogC1],
    comments := [{ id := 1, content := "nice", created_at := 6,
                   user_id := 1, blog_id := 1 }],
    blobs := ["old.png"], session := some 1, nextUserId := 2, nextBlogId := 2 }

/-- An edit form carrying a new image file and no remove-image flag. -/
def formC1 : EditForm :=
  { title := some "t2", content := some "c2", category := some "2",
    remove_image := none, file := some { filename := "new.png" } }

/-- Oracle: the old-blob removal succeeds, the upload then fails. -/
def oC1fail : BlobOracle :=
  { removeOk1 := true, removeOk2 := true, uploadOk := false,
    freshName := "fresh.png" }

/-- Oracle: removal and upload both succeed. -/
def oC1ok : BlobOracle :=
  { removeOk1 := true, removeOk2 := true, uploadOk := true,
    freshName := "fresh.png" }

/-- An edit form omitting every field. -/
def formC10 : EditForm :=
  { title := none, content := none, category := none,
    remove_image := none, file := none }

/-- A post matching "tech" in its title, by the author "alice". -/
def blogTechTitle : Blog :=
  { id := 1, title := some "Intro to Technology", content := some "hello",
    thumbnail := none, created_at := 3, user_id := 1, category_id := some "1" }

/-- A newer post matching "tech" only through its author's username. -/
def blogTechAuthor : Blog :=
  { id := 2, title := some "Gardening", content := some "plants",
    thumbnail := none, created_at := 7, user_id := 2, category_id := some "1" }

/-- A post matching "tech" nowhere. -/
def blogNoTech : Blog :=
  { id := 3, title := some "Cooking", content := some "pasta",
    thumbnail := none, created_at := 5, user_id := 1, category_id := some "1" }

/-- Two users and three blogs for the search witness: one post matches "tech"
by title, one by author username only, one not at all. -/
def stSearch : AppState :=
  { users := [{ id := 1, username := "alice", hash := "h" },
              { id := 2, username := "TechWriter", hash := "h" }],
    blogs := [blogTechTitle, blogTechAuthor, blogNoTech],
    comments := [], blobs := [], session := some 1,
    nextUserId := 3, nextBlogId := 4 }

/-- A valid create form carrying a file. -/
def formC8 : CreateForm :=
  { title := some "T", content := some "C", category := some "1",
    file := some { filename := "pic.jpg" } }

/-- Oracle: the create upload fails. -/
def oC8 : CreateOracle := { uploadOk := false, freshName := "u.jpg" }

/-- A state for the login witness: one stored user, nobody logged in. -/
def stLogin : AppState :=
  { users := [{ id := 1, username := "alice", hash := ghW "password1" }],
    blogs := [], comments := [], blobs := [], session := none,
    nextUserId := 2, nextBlogId := 1 }

/-! Helper lemmas. -/

theorem isEmpty_false_of_ne (s : String) (h : s ≠ "") : s.isEmpty = false := by
  rw [Bool.eq_false_iff]
  intro hc
  exact h ((String.isEmpty_iff s).mp hc)

theorem truthy_some_of_ne (s : String) (h : s ≠ "") : truthy (some s) = true := by
  simp [truthy, isEmpty_false_of_ne s h]

theorem editRemoveImageStep_fieldsKept (form : EditForm) (b1 : Blog)
    (blobs : List String) (ok : Bool) :
    (editRemoveImageStep form b1 blobs ok).1.id = b1.id ∧
    (editRemoveImageStep form b1 blobs ok).1.title = b1.title ∧
    (editRemoveImageStep form b1 blobs ok).1.content = b1.content ∧
    (editRemoveImageStep form b1 blobs ok).1.category_id = b1.category_id := by
  unfold editRemoveImageStep
  split
  · exact ⟨rfl, rfl, rfl, rfl⟩
  · exact ⟨rfl, rfl, rfl, rfl⟩

theorem editFileStep_fieldsKept (form : EditForm) (b2 : Blog)
    (blobs : List String) (o : BlobOracle) :
    (editFileStep form b2 blobs o).1.id = b2.id ∧
    (editFileStep form b2 blobs o).1.title = b2.title ∧
    (editFileStep form b2 blobs o).1.content = b2.content ∧
    (editFileStep form b2 blobs o).1.category_id = b2.category_id := by
  unfold editFileStep
  split
  · split <;> split <;> exact ⟨rfl, rfl, rfl, rfl⟩
  · exact ⟨rfl, rfl, rfl, rfl⟩

/-! Claim theorems. -/

/-- C2: an edit attempt on an existing post by a user who is not its owner
always yields the ownership-violation redirect and leaves the whole world
(every field of the post included) unchanged. -/
theorem editNonOwnerForbidden (st : AppState) (actor id : Nat) (form : EditForm)
    (o : BlobOracle) (blog : Blog)
    (hfind : st.blogs.find? (fun b => b.id == id) = some blog)
    (hne : blog.user_id ≠ actor) :
    edit st actor id form o = ⟨.notAuthorizedRedirect, st, []⟩ := by
  unfold edit
  rw [hfind]
  simp [hne]

/-- Witness for C2 at a concrete input: user 2 edits user 1's post. -/
theorem editNonOwnerForbidden_witness :
    stC1.blogs.find? (fun b => b.id == 1) = some blogC1 ∧
    blogC1.user_id ≠ 2 ∧
    edit stC1 2 1 formC1 oC1fail = ⟨.notAuthorizedRedirect, stC1, []⟩ :=
  ⟨by decide, by decide,
   editNonOwnerForbidden stC1 2 1 formC1 oC1fail blogC1 (by decide) (by decide)⟩

/-- C3: a delete by the post's owner removes the post row and every comment
referencing it, for either outcome of the best-effort blob removal; when the
blob removal fails the bucket is untouched but the row and its comments are
still gone. -/
theorem deleteOwnerCascades (st : AppState) (actor id : Nat) (removeOk : Bool)
    (blog : Blog)
    (hfind : st.blogs.find? (fun b => b.id == id) = some blog)
    (hown : blog.user_id = actor) :
    (deleteBlog st actor id removeOk).1 = .deletedRedirect ∧
    (∀ c ∈ (deleteBlog st actor id removeOk).2.comments, c.blog_id ≠ id) ∧
    (∀ b ∈ (deleteBlog st actor id removeOk).2.blogs, b.id ≠ id) ∧
    (removeOk = false → (deleteBlog st actor id removeOk).2.blobs = st.blobs) := by
  have hres : deleteBlog st actor id removeOk =
      (.deletedRedirect,
       { st with blogs := st.blogs.filter (fun b => b.id ≠ id),
                 comments := st.comments.filter (fun c => c.blog_id ≠ id),
                 blobs :=
                   if truthy blog.thumbnail then
                     (tryRemove st.blobs (lastSegment (blog.thumbnail.getD ""))
                       removeOk).1
                   else st.blobs }) := by
    subst hown
    unfold deleteBlog
    rw [hfind]
    simp
  rw [hres]
  refine ⟨rfl, ?_, ?_, ?_⟩
  · intro c hc
    exact of_decide_eq_true (List.mem_filter.mp hc).2
  · intro b hb
    exact of_decide_eq_true (List.mem_filter.mp hb).2
  · intro hrm
    simp [tryRemove, hrm]

/-- Witness for C3: owner 1 deletes blog 1 while the blob removal fails. -/
theorem deleteOwnerCascades_witness :
    stC1.blogs.find? (fun b => b.id == 1) = some blogC1 ∧
    blogC1.user_id = 1 ∧
    ((deleteBlog stC1 1 1 false).1 = .deletedRedirect ∧
     (∀ c ∈ (deleteBlog stC1 1 1 false).2.comments, c.blog_id ≠ 1) ∧
     (∀ b ∈ (deleteBlog stC1 1 1 false).2.blogs, b.id ≠ 1) ∧
     (false = false → (deleteBlog stC1 1 1 false).2.blobs = stC1.blobs)) :=
  ⟨by decide, by decide,
   deleteOwnerCascades stC1 1 1 false blogC1 (by decide) (by decide)⟩

theorem edit_owner_eq (st : AppState) (actor id : Nat) (form : EditForm)
    (o : BlobOracle) (blog : Blog)
    (hfind : st.blogs.find? (fun b => b.id == id) = some blog)
    (hown : blog.user_id = actor) :
    edit st actor id form o = editOwnerBody st id form o blog := by
  unfold edit
  rw [hfind]
  simp [hown]

/-- C10: an owner edit unconditionally overwrites `title`, `content` and
`category_id` with the raw submitted form values — no presence validation —
so a POST omitting a field writes the absent value into the record. -/
theorem editOwnerOverwritesFields (st : AppState) (actor id : Nat)
    (form : EditForm) (o : BlobOracle) (blog : Blog)
    (hfind : st.blogs.find? (fun b => b.id == id) = some blog)
    (hown : blog.user_id = actor) :
    (edit st actor id form o).outcome = .redirectMyBlogs ∧
    (∃ b, b ∈ (edit st actor id form o).state.blogs ∧ b.id = id) ∧
    (∀ b ∈ (edit st actor id form o).state.blogs, b.id = id →
      b.title = form.title ∧ b.content = form.content ∧
      b.category_id = form.category) := by
  have hid : blog.id = id := by simpa using List.find?_some hfind
  have hmem : blog ∈ st.blogs := List.mem_of_find?_eq_some hfind
  rw [edit_owner_eq st actor id form o blog hfind hown]
  set fb := (editFileStep form
      (editRemoveImageStep form (editAssignFields form blog) st.blobs
        o.removeOk1).1
      (editRemoveImageStep form (editAssignFields form blog) st.blobs
        o.removeOk1).2.1 o).1 with hfb
  obtain ⟨h1, h2, h3, h4⟩ := editFileStep_fieldsKept form
    (editRemoveImageStep form (editAssignFields form blog) st.blobs
      o.removeOk1).1
    (editRemoveImageStep form (editAssignFields form blog) st.blobs
      o.removeOk1).2.1 o
  obtain ⟨g1, g2, g3, g4⟩ := editRemoveImageStep_fieldsKept form
    (editAssignFields form blog) st.blobs o.removeOk1
  have hfid : fb.id = blog.id := by rw [hfb, h1, g1]; rfl
  have hft : fb.title = form.title := by rw [hfb, h2, g2]; rfl
  have hfc : fb.content = form.content := by rw [hfb, h3, g3]; rfl
  have hfcat : fb.category_id = form.category := by rw [hfb, h4, g4]; rfl
  have hblogs : (editOwnerBody st id form o blog).state.blogs =
      st.blogs.map (fun b => if b.id == id then fb else b) := rfl
  refine ⟨rfl, ?_, ?_⟩
  · refine ⟨fb, ?_, hfid.trans hid⟩
    rw [hblogs]
    exact List.mem_map.mpr ⟨blog, hmem, by simp [hid]⟩
  · intro b hb hbid
    rw [hblogs] at hb
    obtain ⟨a, ha, hba⟩ := List.mem_map.mp hb
    by_cases hc : (a.id == id) = true
    · rw [if_pos hc] at hba
      rw [← hba]
      exact ⟨hft, hfc, hfcat⟩
    · rw [if_neg hc] at hba
      rw [← hba] at hbid
      exact absurd (by simp [hbid]) hc

/-- Witness for C10: the owner submits a form with every field absent; the
record ends up with `none` in all three columns. -/
theorem editOwnerOverwritesFields_witness :
    stC1.blogs.find? (fun b => b.id == 1) = some blogC1 ∧
    blogC1.user_id = 1 ∧
    ((edit stC1 1 1 formC10 oC1fail).outcome = .redirectMyBlogs ∧
     (∃ b, b ∈ (edit stC1 1 1 formC10 oC1fail).state.blogs ∧ b.id = 1) ∧
     (∀ b ∈ (edit stC1 1 1 formC10 oC1fail).state.blogs, b.id = 1 →
       b.title = formC10.title ∧ b.content = formC10.content ∧
       b.category_id = formC10.category)) :=
  ⟨by decide, by decide,
   editOwnerOverwritesFields stC1 1 1 formC10 oC1fail blogC1 (by decide)
     (by decide)⟩

theorem string_ne_empty_of_length_ge (p : String) (n : Nat) (hn : 0 < n)
    (h : n ≤ p.length) : p ≠ "" := by
  intro hp
  subst hp
  have hz : ("" : String).length = 0 := rfl
  omega

theorem register_success_eq (gh : String → String) (st : AppState) (u p : String)
    (hu : u ≠ "") (hp8 : 8 ≤ p.length)
    (hfresh : st.users.find? (fun usr => usr.username == u) = none) :
    register gh st (some u) (some p) (some p) =
      (.successRedirect,
       { st with
           users := st.users ++ [{ id := st.nextUserId, username := u,
                                   hash := gh p }],
           nextUserId := st.nextUserId + 1,
           session := some st.nextUserId }) := by
  have hp : p ≠ "" := string_ne_empty_of_length_ge p 8 (by omega) hp8
  unfold register
  simp [truthy, isEmpty_false_of_ne u hu, isEmpty_false_of_ne p hp,
    Nat.not_lt.mpr hp8, hfresh]

/-- C9: a successful registration immediately logs the new user in: the
session holds the fresh user id with no separate login step. -/
theorem registerAutoLogin (gh : String → String) (st : AppState) (u p : String)
    (hu : u ≠ "") (hp8 : 8 ≤ p.length)
    (hfresh : st.users.find? (fun usr => usr.username == u) = none) :
    (register gh st (some u) (some p) (some p)).1 = .successRedirect ∧
    (register gh st (some u) (some p) (some p)).2.session
      = some st.nextUserId ∧
    ({ id := st.nextUserId, username := u, hash := gh p } : User)
      ∈ (register gh st (some u) (some p) (some p)).2.users := by
  rw [register_success_eq gh st u p hu hp8 hfresh]
  exact ⟨rfl, rfl, by simp⟩

/-- Witness for C9: registering "bob" in the empty state logs user 1 in. -/
theorem registerAutoLogin_witness :
    "bob" ≠ "" ∧ 8 ≤ "password1".length ∧
    stEmpty.users.find? (fun usr => usr.username == "bob") = none ∧
    ((register ghW stEmpty (some "bob") (some "password1")
        (some "password1")).1 = .successRedirect ∧
     (register ghW stEmpty (some "bob") (some "password1")
        (some "password1")).2.session = some stEmpty.nextUserId ∧
     ({ id := stEmpty.nextUserId, username := "bob",
        hash := ghW "password1" } : User)
       ∈ (register ghW stEmpty (some "bob") (some "password1")
           (some "password1")).2.users) :=
  ⟨by decide, by decide, by decide,
   registerAutoLogin ghW stEmpty "bob" "password1" (by decide) (by decide)
     (by decide)⟩

/-- C7: with username and password present, a short password loses to every
other failure (WeakPassword even when the confirmation also mismatches); a
long password with a mismatched confirmation yields PasswordMismatch; a
matching long password under a fresh username succeeds. -/
theorem registerValidationOrder (gh : String → String) (st : AppState)
    (u p : String) (c : Option String) (hu : u ≠ "") (hp : p ≠ "") :
    (p.length < 8 →
      (register gh st (some u) (some p) c).1
        = .renderWeakPassword ((sortByCreatedDesc st.blogs).take 3)) ∧
    (8 ≤ p.length → c ≠ some p →
      (register gh st (some u) (some p) c).1
        = .renderPasswordMismatch ((sortByCreatedDesc st.blogs).take 3)) ∧
    (8 ≤ p.length → c = some p →
      st.users.find? (fun usr => usr.username == u) = none →
      (register gh st (some u) (some p) c).1 = .successRedirect) := by
  refine ⟨?_, ?_, ?_⟩
  · intro h8
    unfold register
    simp [truthy, isEmpty_false_of_ne u hu, isEmpty_false_of_ne p hp, h8]
  · intro h8 hc
    unfold register
    simp [truthy, isEmpty_false_of_ne u hu, isEmpty_false_of_ne p hp,
      Nat.not_lt.mpr h8, hc]
  · intro h8 hc hfresh
    subst hc
    rw [register_success_eq gh st u p hu h8 hfresh]

/-- Witness for C7 at concrete inputs: password of length 7 with a mismatched
confirmation is WeakPassword; length 9 mismatched is PasswordMismatch;
length 9 matching succeeds. -/
theorem registerValidationOrder_witness :
    "bob" ≠ "" ∧ "short77" ≠ "" ∧
    (("short77".length < 8 →
       (register ghW stEmpty (some "bob") (some "short77") (some "zzz")).1
         = .renderWeakPassword ((sortByCreatedDesc stEmpty.blogs).take 3)) ∧
     (8 ≤ "short77".length → some "zzz" ≠ some "short77" →
       (register ghW stEmpty (some "bob") (some "short77") (some "zzz")).1
         = .renderPasswordMismatch ((sortByCreatedDesc stEmpty.blogs).take 3)) ∧
     (8 ≤ "short77".length → some "zzz" = some "short77" →
       stEmpty.users.find? (fun usr => usr.username == "bob") = none →
       (register ghW stEmpty (some "bob") (some "short77") (some "zzz")).1
         = .successRedirect)) :=
  ⟨by decide, by decide,
   registerValidationOrder ghW stEmpty "bob" "short77" (some "zzz")
     (by decide) (by decide)⟩

/-- C8: when the create form is valid and carries a file whose upload fails,
the exception is swallowed and the post is still inserted with a null
thumbnail; the bucket is untouched. -/
theorem createUploadFailureNonFatal (st : AppState) (actor : Nat)
    (form : CreateForm) (o : CreateOracle) (now : Nat)
    (ht : truthy form.title = true) (hc : truthy form.content = true)
    (hcat : truthy form.category = true) (hf : fileTruthy form.file = true)
    (hup : o.uploadOk = false) :
    create st actor form o now =
      (.redirectIndex,
       { st with
           blogs := st.blogs ++
             [{ id := st.nextBlogId, title := form.title,
                content := form.content, thumbnail := none, created_at := now,
                user_id := actor, category_id := form.category }],
           nextBlogId := st.nextBlogId + 1 }) := by
  unfold create
  simp [ht, hc, hcat, hf, hup]

/-- Witness for C8: user 1 creates a valid post while the upload fails. -/
theorem createUploadFailureNonFatal_witness :
    truthy formC8.title = true ∧ truthy formC8.content = true ∧
    truthy formC8.category = true ∧ fileTruthy formC8.file = true ∧
    oC8.uploadOk = false ∧
    create stC1 1 formC8 oC8 9 =
      (.redirectIndex,
       { stC1 with
           blogs := stC1.blogs ++
             [{ id := stC1.nextBlogId, title := formC8.title,
                content := formC8.content, thumbnail := none, created_at := 9,
                user_id := 1, category_id := formC8.category }],
           nextBlogId := stC1.nextBlogId + 1 }) :=
  ⟨by decide, by decide, by decide, by decide, by decide,
   createUploadFailureNonFatal stC1 1 formC8 oC8 9 (by decide) (by decide)
     (by decide) (by decide) (by decide)⟩

/-- C4: the externally visible login failure for a wrong password on an
existing username and for a nonexistent username is the same rendered
result — the two causes are indistinguishable to the caller. -/
theorem loginFailureIndistinguishable (chk : String → String → Bool)
    (st : AppState) (u1 p1 u2 p2 : String) (usr : User)
    (hsess : st.session = none)
    (hu1 : u1 ≠ "") (hp1 : p1 ≠ "") (hu2 : u2 ≠ "") (hp2 : p2 ≠ "")
    (hfound : st.users.find? (fun x => x.username == u1) = some usr)
    (hwrong : chk usr.hash p1 = false)
    (hunknown : st.users.find? (fun x => x.username == u2) = none) :
    login chk st (some u1) (some p1) = login chk st (some u2) (some p2) ∧
    login chk st (some u1) (some p1)
      = (.renderInvalidCredentials (st.blogs.take 3), st) := by
  have h1 : login chk st (some u1) (some p1)
      = (.renderInvalidCredentials (st.blogs.take 3), st) := by
    unfold login
    simp [hsess, truthy, isEmpty_false_of_ne u1 hu1, isEmpty_false_of_ne p1 hp1,
      hfound, hwrong]
  have h2 : login chk st (some u2) (some p2)
      = (.renderInvalidCredentials (st.blogs.take 3), st) := by
    unfold login
    simp [hsess, truthy, isEmpty_false_of_ne u2 hu2, isEmpty_false_of_ne p2 hp2,
      hunknown]
  exact ⟨h1.trans h2.symm, h1⟩

/-- Witness for C4: wrong password for "alice" versus unknown "ghost". -/
theorem loginFailureIndistinguishable_witness :
    stLogin.session = none ∧
    stLogin.users.find? (fun x => x.username == "alice")
      = some { id := 1, username := "alice", hash := ghW "password1" } ∧
    chkW (ghW "password1") "wrongpass" = false ∧
    stLogin.users.find? (fun x => x.username == "ghost") = none ∧
    (login chkW stLogin (some "alice") (some "wrongpass")
       = login chkW stLogin (some "ghost") (some "whatever") ∧
     login chkW stLogin (some "alice") (some "wrongpass")
       = (.renderInvalidCredentials (stLogin.blogs.take 3), stLogin)) :=
  ⟨by decide, by decide, by decide, by decide,
   loginFailureIndistinguishable chkW stLogin "alice" "wrongpass" "ghost"
     "whatever" { id := 1, username := "alice", hash := ghW "password1" }
     (by decide) (by decide) (by decide) (by decide) (by decide) (by decide)
     (by decide) (by decide)⟩

/-- C6: registering stores only the one-way hash `gh p` for the new user
(the plaintext appears in no stored field except through `gh`), and an
authentication attempt with exactly the same credentials afterwards
succeeds. -/
theorem registerAuthenticateRoundTrip (gh : String → String)
    (chk : String → String → Bool) (st : AppState) (u p : String)
    (hu : u ≠ "") (hp8 : 8 ≤ p.length)
    (hfresh : st.users.find? (fun usr => usr.username == u) = none)
    (hchk : chk (gh p) p = true) :
    (register gh st (some u) (some p) (some p)).1 = .successRedirect ∧
    (register gh st (some u) (some p) (some p)).2.users
      = st.users ++ [{ id := st.nextUserId, username := u, hash := gh p }] ∧
    (gh p ≠ p →
      ∀ usr ∈ (register gh st (some u) (some p) (some p)).2.users,
        usr.hash = p → usr ∈ st.users) ∧
    (login chk
        { (register gh st (some u) (some p) (some p)).2 with session := none }
        (some u) (some p)).1 = .successRedirect := by
  have hp : p ≠ "" := string_ne_empty_of_length_ge p 8 (by omega) hp8
  rw [register_success_eq gh st u p hu hp8 hfresh]
  refine ⟨rfl, rfl, ?_, ?_⟩
  · intro hne usr husr hhash
    rcases List.mem_append.mp husr with hin | hnew
    · exact hin
    · rcases List.mem_singleton.mp hnew with rfl
      exact absurd hhash hne
  · unfold login
    simp [truthy, isEmpty_false_of_ne u hu, isEmpty_false_of_ne p hp,
      List.find?_append, hfresh, List.find?, hchk]

/-- Witness for C6: "bob" registers with "password1" and authenticates with
the same credentials. -/
theorem registerAuthenticateRoundTrip_witness :
    "bob" ≠ "" ∧ 8 ≤ "password1".length ∧
    stEmpty.users.find? (fun usr => usr.username == "bob") = none ∧
    chkW (ghW "password1") "password1" = true ∧
    ((register ghW stEmpty (some "bob") (some "password1")
        (some "password1")).1 = .successRedirect ∧
     (register ghW stEmpty (some "bob") (some "password1")
        (some "password1")).2.users
       = stEmpty.users ++ [{ id := stEmpty.nextUserId, username := "bob",
                             hash := ghW "password1" }] ∧
     (ghW "password1" ≠ "password1" →
       ∀ usr ∈ (register ghW stEmpty (some "bob") (some "password1")
           (some "password1")).2.users,
         usr.hash = "password1" → usr ∈ stEmpty.users) ∧
     (login chkW
         { (register ghW stEmpty (some "bob") (some "password1")
             (some "password1")).2 with session := none }
         (some "bob") (some "password1")).1 = .successRedirect) :=
  ⟨by decide, by decide, by decide, by decide,
   registerAuthenticateRoundTrip ghW chkW stEmpty "bob" "password1"
     (by decide) (by decide) (by decide) (by decide)⟩

/-- C5: with a truthy query the listing is exactly the blogs whose title,
content, or joined author username contains the query case-insensitively
(logical OR across the three fields), newest first; with an absent or empty
query it is all blogs, newest first. -/
theorem indexSearchSpec (st : AppState) (q : String) (hq : q ≠ "") :
    List.Sorted newestFirst (index st (some q)) ∧
    (∀ b : Blog, b ∈ index st (some q) ↔
      b ∈ st.blogs ∧ ∃ u, userOf st b = some u ∧
        (optContainsCI b.title q || optContainsCI b.content q ||
         containsCI u.username q) = true) ∧
    (∀ q' : Option String, truthy q' = false →
      List.Sorted newestFirst (index st q') ∧
      ∀ b : Blog, b ∈ index st q' ↔ b ∈ st.blogs) := by
  have hidx : index st (some q) = sortByCreatedDesc (st.blogs.filter (fun b =>
      match userOf st b with
      | some u => optContainsCI b.title q || optContainsCI b.content q ||
          containsCI u.username q
      | none => false)) := by
    unfold index
    simp [truthy, isEmpty_false_of_ne q hq]
  refine ⟨?_, ?_, ?_⟩
  · rw [hidx]
    exact List.sorted_insertionSort newestFirst _
  · intro b
    rw [hidx]
    unfold sortByCreatedDesc
    rw [(List.perm_insertionSort newestFirst _).mem_iff, List.mem_filter]
    constructor
    · rintro ⟨hb, hpred⟩
      refine ⟨hb, ?_⟩
      cases hu : userOf st b with
      | none =>
        rw [hu] at hpred
        exact absurd hpred (by simp)
      | some u =>
        rw [hu] at hpred
        exact ⟨u, rfl, hpred⟩
    · rintro ⟨hb, u, hu, hmatch⟩
      refine ⟨hb, ?_⟩
      rw [hu]
      exact hmatch
  · intro q' hq'
    have hidx' : index st q' = sortByCreatedDesc st.blogs := by
      unfold index
      simp [hq']
    rw [hidx']
    exact ⟨List.sorted_insertionSort newestFirst _,
      fun b => (List.perm_insertionSort newestFirst _).mem_iff⟩

/-- Witness for C5: searching "tech" in a concrete store returns the
author-matched newer post then the title-matched older one, and the
characterization theorem instantiates there. -/
theorem indexSearchSpec_witness :
    "tech" ≠ "" ∧
    index stSearch (some "tech") = [blogTechAuthor, blogTechTitle] ∧
    index stSearch none = [blogTechAuthor, blogNoTech, blogTechTitle] ∧
    (List.Sorted newestFirst (index stSearch (some "tech")) ∧
     (∀ b : Blog, b ∈ index stSearch (some "tech") ↔
       b ∈ stSearch.blogs ∧ ∃ u, userOf stSearch b = some u ∧
         (optContainsCI b.title "tech" || optContainsCI b.content "tech" ||
          containsCI u.username "tech") = true) ∧
     (∀ q' : Option String, truthy q' = false →
       List.Sorted newestFirst (index stSearch q') ∧
       ∀ b : Blog, b ∈ index stSearch q' ↔ b ∈ stSearch.blogs)) :=
  ⟨by decide, by decide, by decide,
   indexSearchSpec stSearch "tech" (by decide)⟩

theorem not_mem_removeBlob_self (blobs : List String) (name : String) :
    name ∉ removeBlob blobs name := by
  intro h
  have := (List.mem_filter.mp h).2
  simp at this

theorem editRemoveImageStep_skip (form : EditForm) (b1 : Blog)
    (blobs : List String) (ok : Bool) (h : form.remove_image ≠ some "true") :
    editRemoveImageStep form b1 blobs ok = (b1, blobs, []) := by
  unfold editRemoveImageStep
  have hb : (form.remove_image == some "true") = false := by
    simp [h]
  simp [hb]

theorem editFileStep_replaceUploadOk (form : EditForm) (b2 : Blog)
    (blobs : List String) (o : BlobOracle) (oldUrl : String)
    (hfile : fileTruthy form.file = true)
    (hthumb : b2.thumbnail = some oldUrl) (holdne : oldUrl ≠ "")
    (hup : o.uploadOk = true) :
    editFileStep form b2 blobs o =
      ({ b2 with thumbnail := some (publicUrl o.freshName) },
       o.freshName :: (tryRemove blobs (lastSegment oldUrl) o.removeOk2).1,
       (tryRemove blobs (lastSegment oldUrl) o.removeOk2).2) := by
  unfold editFileStep
  simp [hfile, hthumb, truthy, isEmpty_false_of_ne oldUrl holdne, hup]

/-- C1 as stated is violated at a concrete input: an owner edit carrying a
new image file, whose old-blob removal succeeds but whose upload then fails,
commits a post whose thumbnail still points at the very blob this request
deleted (the name is in the deletion record and no longer live). -/
theorem editReplaceDanglingReference :
    (edit stC1 1 1 formC1 oC1fail).outcome = .redirectMyBlogs ∧
    ((edit stC1 1 1 formC1 oC1fail).state.blogs.find? (fun b => b.id == 1)).map
        Blog.thumbnail = some (some (publicUrl "old.png")) ∧
    lastSegment (publicUrl "old.png")
      ∈ (edit stC1 1 1 formC1 oC1fail).deletedBlobs ∧
    lastSegment (publicUrl "old.png")
      ∉ (edit stC1 1 1 formC1 oC1fail).state.blobs := by
  decide

/-- C1 amended: for an owner edit carrying a new image file (and not also
the remove-image flag) on a post with a live thumbnail, whenever the upload
succeeds — a successful replace — the post's single thumbnail reference is
the freshly uploaded live blob, that reference is not among the names this
request deleted, and the prior blob is gone from the bucket when its
best-effort deletion succeeded.  (When the upload fails after a successful
deletion of the prior blob the reference dangles, per the counterexample.) -/
theorem editReplaceUploadOkInvariant (st : AppState) (actor id : Nat)
    (form : EditForm) (o : BlobOracle) (blog : Blog) (oldUrl : String)
    (hfind : st.blogs.find? (fun b => b.id == id) = some blog)
    (hown : blog.user_id = actor)
    (hfile : fileTruthy form.file = true)
    (hnorm : form.remove_image ≠ some "true")
    (hthumb : blog.thumbnail = some oldUrl) (holdne : oldUrl ≠ "")
    (hup : o.uploadOk = true)
    (hfreshnew : o.freshName ∉ st.blobs)
    (holdlive : lastSegment oldUrl ∈ st.blobs)
    (hseg : lastSegment (publicUrl o.freshName) = o.freshName) :
    (edit st actor id form o).outcome = .redirectMyBlogs ∧
    (∀ b ∈ (edit st actor id form o).state.blogs, b.id = id →
      b.thumbnail = some (publicUrl o.freshName)) ∧
    o.freshName ∈ (edit st actor id form o).state.blobs ∧
    lastSegment (publicUrl o.freshName)
      ∉ (edit st actor id form o).deletedBlobs ∧
    (o.removeOk2 = true →
      lastSegment oldUrl ∉ (edit st actor id form o).state.blobs) := by
  have hne : o.freshName ≠ lastSegment oldUrl := by
    intro h
    rw [h] at hfreshnew
    exact hfreshnew holdlive
  rw [edit_owner_eq st actor id form o blog hfind hown]
  unfold editOwnerBody
  rw [editRemoveImageStep_skip form (editAssignFields form blog) st.blobs
    o.removeOk1 hnorm]
  dsimp only
  rw [editFileStep_replaceUploadOk form (editAssignFields form blog) st.blobs
    o oldUrl hfile hthumb holdne hup]
  refine ⟨rfl, ?_, ?_, ?_, ?_⟩
  · intro b hb hbid
    obtain ⟨a, ha, hba⟩ := List.mem_map.mp hb
    by_cases hc : (a.id == id) = true
    · rw [if_pos hc] at hba
      rw [← hba]
    · rw [if_neg hc] at hba
      rw [← hba] at hbid
      exact absurd (by simp [hbid]) hc
  · exact List.mem_cons_self _ _
  · rw [hseg]
    intro hmem
    rw [List.nil_append] at hmem
    cases hrm : o.removeOk2 with
    | true =>
      rw [hrm] at hmem
      unfold tryRemove at hmem
      simp at hmem
      exact hne hmem
    | false =>
      rw [hrm] at hmem
      unfold tryRemove at hmem
      simp at hmem
  · intro hrm
    rw [hrm]
    unfold tryRemove
    simp only [if_true]
    intro hmem
    rcases List.mem_cons.mp hmem with h | h
    · exact hne h.symm
    · exact not_mem_removeBlob_self st.blobs (lastSegment oldUrl) h

/-- Witness for the amended C1: the same concrete replace with a succeeding
upload ends with exactly the fresh blob referenced and live, and the old
blob deleted. -/
theorem editReplaceUploadOkInvariant_witness :
    stC1.blogs.find? (fun b => b.id == 1) = some blogC1 ∧
    blogC1.user_id = 1 ∧ fileTruthy formC1.file = true ∧
    formC1.remove_image ≠ some "true" ∧
    blogC1.thumbnail = some (publicUrl "old.png") ∧
    oC1ok.uploadOk = true ∧ oC1ok.freshName ∉ stC1.blobs ∧
    lastSegment (publicUrl "old.png") ∈ stC1.blobs ∧
    ((edit stC1 1 1 formC1 oC1ok).outcome = .redirectMyBlogs ∧
     (∀ b ∈ (edit stC1 1 1 formC1 oC1ok).state.blogs, b.id = 1 →
       b.thumbnail = some (publicUrl oC1ok.freshName)) ∧
     oC1ok.freshName ∈ (edit stC1 1 1 formC1 oC1ok).state.blobs ∧
     lastSegment (publicUrl oC1ok.freshName)
       ∉ (edit stC1 1 1 formC1 oC1ok).deletedBlobs ∧
     (oC1ok.removeOk2 = true →
       lastSegment (publicUrl "old.png")
         ∉ (edit stC1 1 1 formC1 oC1ok).state.blobs)) :=
  ⟨by decide, by decide, by decide, by decide, by decide, by decide,
   by decide, by decide,
   editReplaceUploadOkInvariant stC1 1 1 formC1 oC1ok blogC1
     (publicUrl "old.png") (by decide) (by decide) (by decide) (by decide)
     (by decide) (by decide) (by decide) (by decide) (by decide) (by decide)⟩
